import Mathlib

/-
Verification development for the tender-digest incremental discovery engine.

The Go source (danp/tender-digest) is shallowly embedded below:
pure functions become Lean functions, the sqlite-backed store becomes an
explicit list of rows threaded through the driver, HTTP and browser
transports become scripted responses supplied as explicit arguments, and
fallible code returns Except.  All embeddings follow the Go source; where
the source delegates to Go library code (package time, package strings)
the corresponding library semantics are reproduced at the granularity the
engine observes (calendar days, since the store serializes dates with the
layout 2006-01-02).
-/

namespace TenderDigest

/-! ## Calendar dates (Go package time, at day granularity)

The engine stores and compares calendar dates: store.add serializes
IssuedDate and CloseDate with the layout 2006-01-02, and the watermark
queries parse that layout back.  A Go time.Time is therefore embedded as
a normalized calendar date.  Date arithmetic (AddDate) and comparison
(Before) are reproduced via conversion to a linear day count, exactly as
Go computes them through an absolute time; the civil-calendar conversion
is the standard proleptic Gregorian day-count algorithm, which agrees
with Go package time for all dates. -/

structure Date where
  year : Int
  month : Int
  day : Int
  deriving Repr, DecidableEq

/-- Day count of a (possibly unnormalized) year/month/day triple, with
1970-01-01 mapping to day 0.  The month must be in 1..12; the day may be
out of range and extrapolates linearly, matching how Go time.Date
normalizes an out-of-range day through absolute time. -/
def daysFromCivil (y m d : Int) : Int :=
  let y := y - (if m ≤ 2 then 1 else 0)
  let era := y.ediv 400
  let yoe := y - era * 400
  let doy := (153 * (m + (if m > 2 then -3 else 9)) + 2).ediv 5 + d - 1
  let doe := yoe * 365 + yoe.ediv 4 - yoe.ediv 100 + doy
  era * 146097 + doe - 719468

/-- Inverse of daysFromCivil; always returns a normalized date. -/
def civilFromDays (z : Int) : Date :=
  let z := z + 719468
  let era := z.ediv 146097
  let doe := z - era * 146097
  let yoe := (doe - doe.ediv 1460 + doe.ediv 36524 - doe.ediv 146096).ediv 365
  let y := yoe + era * 400
  let doy := doe - (365 * yoe + yoe.ediv 4 - yoe.ediv 100)
  let mp := (5 * doy + 2).ediv 153
  let d := doy - (153 * mp + 2).ediv 5 + 1
  let m := mp + (if mp < 10 then 3 else -9)
  ⟨y + (if m ≤ 2 then 1 else 0), m, d⟩

/-- Linear day count of a date. -/
def Date.days (t : Date) : Int :=
  daysFromCivil t.year t.month t.day

/-- Go time.Time.Before: strict comparison of instants.  At day
granularity this is strict comparison of day counts. -/
def Date.before (a b : Date) : Bool :=
  a.days < b.days

/-- Go time.Time.IsZero: the zero time is January 1 of year 1. -/
def Date.isZero (t : Date) : Bool :=
  t.year == 1 && t.month == 1 && t.day == 1

/-- The Go zero time (what an empty-store watermark query returns). -/
def zeroDate : Date := ⟨1, 1, 1⟩

/-- Go time.Time.AddDate(years, months, days): add the components, then
normalize months into 1..12 (Go norm with base 12, i.e. Euclidean
division) and normalize the day through the absolute day count. -/
def Date.addDate (t : Date) (years months days : Int) : Date :=
  let m0 := t.month + months - 1
  let y := t.year + years + m0.ediv 12
  let m := m0.emod 12 + 1
  civilFromDays (daysFromCivil y m (t.day + days))

/-! ## Records and the dedup/watermark store

Embeds type Tender, type store and its methods add, maxIssued and
maxObserved.  The sqlite table (primary key id, insert ... on conflict
do nothing) is embedded as a list of rows in insertion order; a
conflicting insert leaves the list unchanged and reports zero rows
affected.  The issued and close columns hold the dates serialized with
layout 2006-01-02 (lossless at day granularity); first_observed holds
the time.Now() value passed at insert. -/

structure Tender where
  ID : String
  URL : String
  Description : String
  Agency : String
  IssuedDate : Date
  CloseDate : Date
  deriving Repr, DecidableEq

structure StoredRow where
  id : String
  url : String
  description : String
  agency : String
  issued : Date
  close : Date
  firstObserved : Date
  deriving Repr, DecidableEq

abbrev Store := List StoredRow

/-- The row that store.add inserts for a tender, with now standing for
the time.Now() call at the insert. -/
def Tender.toRow (t : Tender) (now : Date) : StoredRow :=
  ⟨t.ID, t.URL, t.Description, t.Agency, t.IssuedDate, t.CloseDate, now⟩

/-- store.add: insert on conflict do nothing, keyed by id; the Bool is
RowsAffected > 0, i.e. whether the row was actually inserted. -/
def storeAdd (s : Store) (t : Tender) (now : Date) : Store × Bool :=
  if s.any (fun r => r.id == t.ID) then (s, false)
  else (s ++ [t.toRow now], true)

/-- The SQL aggregate max over one date-valued column of a list of
rows, folded from a first value. -/
def dateMaxBy (f : StoredRow → Date) (a : Date) (rs : List StoredRow) : Date :=
  rs.foldl (fun acc x => if acc.before (f x) then f x else acc) a

/-- store.maxIssued: select max(issued), or the zero time for an empty
table.  SQL max over the zero-padded 2006-01-02 text column is
lexicographic and therefore chronological, embedded here as the maximum
under Date.before. -/
def storeMaxIssued (s : Store) : Date :=
  match s with
  | [] => zeroDate
  | r :: rs => dateMaxBy (fun x => x.issued) r.issued rs

/-- Go time.Parse with the day-only layout 2006-01-02 applied to the
first_observed column text.  store.add hands time.Now() to the sqlite
driver, which (with the time_format=sqlite DSN option) serializes it
in the layout 2006-01-02 15:04:05.999999999-07:00; the clock and zone
part is mandatory in that layout, so the stored text always carries
extra characters after the day part and Go time.Parse always rejects
it with an extra-text error.  The Date argument is the day part of
the serialized column maximum; the result is the parse outcome, which
is therefore none for every row this program writes. -/
def parseObservedText (_ : Date) : Option Date := none

/-- store.maxObserved (browser-session variant): select
max(first_observed), then parse the column text with the day-only
layout 2006-01-02.  An empty table yields NULL and the zero time; a
non-empty table yields the serialized maximum, whose parse fails (see
parseObservedText), and the swallowed-error path returns the zero
time as well. -/
def storeMaxObserved (s : Store) : Date :=
  match s with
  | [] => zeroDate
  | r :: rs =>
    match parseObservedText (dateMaxBy (fun x => x.firstObserved) r.firstObserved rs) with
    | none => zeroDate
    | some t => t

/-! ## The discovery driver (findNew)

findNew computes a cutoff from the watermark and then loops: call
cl.List(token), and for each returned tender call st.add, collect it if
newly inserted, and break out of both loops as soon as the relevant date
of a record is strictly before the cutoff; otherwise continue to the
next page while nextToken is nonempty.  Any error (from List or from
add) is returned immediately with a nil result.

The client transport is embedded as a script: the i-th List call
returns the i-th entry, either an error or a page (the cursor string is
treated opaquely by the driver, which only tests it against the empty
string).  A possible failure of the database insert is embedded as an
oracle failAdd, consulted exactly where db.Exec could fail.  Alongside
the Go results the embedding returns the committed store, the number of
List calls made, and whether the loop ran past the supplied script
(i.e. would have issued a further List call). -/

structure ListResp where
  tenders : List Tender
  nextToken : String
  deriving Repr, DecidableEq

/-- The inner per-page loop of findNew: add each tender, accumulate the
newly inserted ones, and stop with a true flag when cmp (the relevant
date is strictly before the cutoff) fires.  The committed store is
returned even when the insert fails. -/
def addPageE (failAdd : Tender → Option String) (now : Date) (cmp : Tender → Bool) :
    Store → List Tender → List Tender → Store × Except String (List Tender × Bool)
  | st, nt, [] => (st, .ok (nt, false))
  | st, nt, t :: rest =>
    match failAdd t with
    | some e => (st, .error e)
    | none =>
      let p := storeAdd st t now
      let nt1 := if p.2 then nt ++ [t] else nt
      if cmp t then (p.1, .ok (nt1, true))
      else addPageE failAdd now cmp p.1 nt1 rest

/-- The outer paging loop of findNew over a scripted client.  Returns
the committed store, the Go result (the new tenders, or the first
error), the number of List calls made, and true when the loop ran past
the end of the script. -/
def findNewLoopE (failAdd : Tender → Option String) (now : Date) (cmp : Tender → Bool) :
    Store → List Tender → List (Except String ListResp) →
      Store × Except String (List Tender) × Nat × Bool
  | st, nt, [] => (st, .ok nt, 0, true)
  | st, _, .error e :: _ => (st, .error e, 1, false)
  | st, nt, .ok pg :: rest =>
    match addPageE failAdd now cmp st nt pg.tenders with
    | (st1, .error e) => (st1, .error e, 1, false)
    | (st1, .ok (nt1, hit)) =>
      if hit then (st1, .ok nt1, 1, false)
      else if pg.nextToken == "" then (st1, .ok nt1, 1, false)
      else
        let r := findNewLoopE failAdd now cmp st1 nt1 rest
        (r.1, r.2.1, r.2.2.1 + 1, r.2.2.2)

/-- The cutoff of the issued-date findNew (token- and form-session
variants): start := maxIssued; if start is not zero, subtract one
month. -/
def issuedStart (st : Store) : Date :=
  let m := storeMaxIssued st
  if m.isZero then m else m.addDate 0 (-1) 0

/-- The cutoff of the first-observed findNew (browser-session variant):
cutoff := maxObserved; if zero, cutoff := now; subtract four months. -/
def observedCutoff (st : Store) (now : Date) : Date :=
  let m := storeMaxObserved st
  let c := if m.isZero then now else m
  c.addDate 0 (-4) 0

/-- findNew of the token- and form-session variants: cutoff from
maxIssued, early exit on IssuedDate strictly before the cutoff. -/
def findNewIssuedE (failAdd : Tender → Option String) (st : Store) (now : Date)
    (script : List (Except String ListResp)) :
    Store × Except String (List Tender) × Nat × Bool :=
  findNewLoopE failAdd now (fun t => t.IssuedDate.before (issuedStart st)) st [] script

/-- findNew of the browser-session variant: cutoff from maxObserved
(falling back to now), early exit on CloseDate strictly before the
cutoff. -/
def findNewObservedE (failAdd : Tender → Option String) (st : Store) (now : Date)
    (script : List (Except String ListResp)) :
    Store × Except String (List Tender) × Nat × Bool :=
  findNewLoopE failAdd now (fun t => t.CloseDate.before (observedCutoff st now)) st [] script

/-- An insert oracle that never fails (the happy path of db.Exec). -/
def noAddFail : Tender → Option String := fun _ => none

/-- A script in which every List call succeeds. -/
def okScript (pages : List ListResp) : List (Except String ListResp) :=
  pages.map Except.ok

/-- Specification-side fold: add a sequence of tenders one by one with
no paging and no early exit, returning the final store and the sublist
of newly inserted tenders in processing order. -/
def addAll (now : Date) : Store → List Tender → Store × List Tender
  | st, [] => (st, [])
  | st, t :: ts =>
    let p := storeAdd st t now
    let r := addAll now p.1 ts
    (r.1, if p.2 then t :: r.2 else r.2)

/-! ## Client cursor computation (token- and form-session variants)

Both HTTP variants request a fixed page number (Atoi of the cursor, or
1 for the empty cursor) and a fixed page size (numberOfRecords=25 for
the token-session client, ddPageSize=100 for the form-session client);
the remote listing is embedded as the full source list, of which the
server serves the requested slice.  What each variant computes for
nextToken is taken verbatim from the source: the token-session client
returns page+1 whenever the page is nonempty, the form-session client
whenever the page has at least pageSize rows. -/

/-- The slice of the source listing served for one page request. -/
def pageSlice (pageSize : Nat) (src : List Tender) (page : Nat) : List Tender :=
  (src.drop ((page - 1) * pageSize)).take pageSize

/-- Token-session variant: token = ""; if len(ts) > 0, token = page+1
(fmt.Sprint of an int is its decimal representation). -/
def tokenNextToken (page : Nat) (ts : List Tender) : String :=
  if ts.length > 0 then Nat.repr (page + 1) else ""

/-- Form-session variant: token = ""; if len(ts) >= pageSize (100),
token = page+1. -/
def formNextToken (page : Nat) (ts : List Tender) : String :=
  if ts.length ≥ 100 then Nat.repr (page + 1) else ""

/-- One successful List call of the token-session client: the served
page and the cursor it hands back. -/
def tokenList (src : List Tender) (page : Nat) : List Tender × String :=
  let ts := pageSlice 25 src page
  (ts, tokenNextToken page ts)

/-- One successful List call of the form-session client. -/
def formList (src : List Tender) (page : Nat) : List Tender × String :=
  let ts := pageSlice 100 src page
  (ts, formNextToken page ts)

/-- The part of the source listing that comes after the given page:
empty exactly when the fetched page was the last one with data. -/
def remainingAfter (pageSize : Nat) (src : List Tender) (page : Nat) : List Tender :=
  src.drop (page * pageSize)

/-! ## Lazy session establishment (Client.init of the token-session
variant)

Client.init returns immediately when the ready flag is set; otherwise
it performs the authentication handshake: a non-200 response fails, an
unparseable body fails, an empty JWTToken fails, and otherwise the
token is stored and ready is set.  The handshake response is embedded
as a status plus the parse result of the JWTToken field (with a
transport failure folded into a non-200 status). -/

structure AuthResp where
  status : Int
  jwtToken : Option String
  deriving Repr, DecidableEq

structure ClientSession where
  ready : Bool
  token : String
  deriving Repr, DecidableEq

/-- Client.init: no-op when ready, otherwise one establishment attempt. -/
def initClient (c : ClientSession) (resp : AuthResp) : ClientSession × Except String Unit :=
  if c.ready then (c, .ok ())
  else if resp.status ≠ 200 then (c, .error "got status")
  else
    match resp.jwtToken with
    | none => (c, .error "unmarshaling body")
    | some tok =>
      if tok = "" then (c, .error "body does not contain jwttoken")
      else ({ ready := true, token := tok }, .ok ())

/-- Client.List at session granularity: init first; on init failure
return the error without fetching a page (the Bool records whether the
page fetch was reached); otherwise return the outcome of the page
fetch. -/
def listSession (c : ClientSession) (auth : AuthResp)
    (fetch : Except String (List Tender × String)) :
    ClientSession × Bool × Except String (List Tender × String) :=
  match initClient c auth with
  | (c1, .error e) => (c1, false, .error e)
  | (c1, .ok _) => (c1, true, fetch)

/-- A sequence of List calls on one client instance, counting how many
establishment attempts were made (init bodies entered past the ready
check). -/
def runListCalls (c : ClientSession) :
    List (AuthResp × Except String (List Tender × String)) → ClientSession × Nat
  | [] => (c, 0)
  | (a, f) :: rest =>
    let attempted := if c.ready then 0 else 1
    let c1 := (listSession c a f).1
    let r := runListCalls c1 rest
    (r.1, attempted + r.2)

/-! ## Async capture buffer (browser-session variant)

The page response hook appends to c.responses under c.responsesMu
whenever the response URL contains the data-endpoint pattern and the
body unmarshals into RawTenders; other responses and unparseable
bodies are dropped.  List dequeues the head of c.responses under the
lock, failing when the queue is empty.  Since every queue access is
under the one lock, a concurrent execution is a sequence of atomic
queue operations; the interleaving is embedded as that sequence. -/

structure RawEntry where
  id : String
  title : String
  dateAvailable : Option Date
  dateClosing : Option Date
  deriving Repr, DecidableEq

structure RawTenders where
  success : Bool
  data : List RawEntry
  total : Int
  deriving Repr, DecidableEq

def listPrefixOf : List Char → List Char → Bool
  | [], _ => true
  | _ :: _, [] => false
  | a :: as, b :: bs => a == b && listPrefixOf as bs

def listContainsSeg (pat : List Char) : List Char → Bool
  | [] => listPrefixOf pat []
  | c :: rest => listPrefixOf pat (c :: rest) || listContainsSeg pat rest

/-- Go strings.Contains. -/
def strContains (s pat : String) : Bool :=
  listContainsSeg pat.toList s.toList

/-- The data-endpoint URL pattern the response hook filters on. -/
def searchPat : String := "/Module/Tenders/en/Tender/Search/"

/-- The response hook: append the parsed payload when the URL matches
and the body unmarshals; otherwise leave the queue unchanged.  The
body argument is the unmarshal result (none covers both a body read
failure and a JSON failure, which the hook drops silently). -/
def hookAppend (q : List RawTenders) (url : String) (body : Option RawTenders) :
    List RawTenders :=
  if strContains url searchPat then
    match body with
    | some rt => q ++ [rt]
    | none => q
  else q

/-- The dequeue step of List: error on an empty queue, otherwise remove
and return the oldest payload. -/
def bufDequeue (q : List RawTenders) : List RawTenders × Except String RawTenders :=
  match q with
  | [] => ([], .error "no responses")
  | r :: rest => (rest, .ok r)

/-- One atomic queue operation: a network response observed by the hook,
or the dequeue performed inside a List call. -/
inductive BufOp where
  | response (url : String) (body : Option RawTenders)
  | dequeue
  deriving Repr

/-- Run an interleaving of hook executions and List dequeues from a
given queue state, collecting every dequeue result in order. -/
def runBuf : List RawTenders → List BufOp → List RawTenders × List (Except String RawTenders)
  | q, [] => (q, [])
  | q, .response url body :: rest => runBuf (hookAppend q url body) rest
  | q, .dequeue :: rest =>
    let p := bufDequeue q
    let r := runBuf p.1 rest
    (r.1, p.2 :: r.2)

/-- The payloads an operation sequence enqueues, in order (only
responses that pass the hook filter). -/
def enqueuedOf : List BufOp → List RawTenders
  | [] => []
  | .response url body :: rest => hookAppend [] url body ++ enqueuedOf rest
  | .dequeue :: rest => enqueuedOf rest

/-- The successfully dequeued payloads, in dequeue order. -/
def successesOf : List (Except String RawTenders) → List RawTenders
  | [] => []
  | .ok r :: rest => r :: successesOf rest
  | .error _ :: rest => successesOf rest

/-! ## Record conversion of the browser-session List

For each raw entry, List cuts the title at the first space into id and
description, cleans the description (TrimSpace, TrimPrefix of a dash,
removal of non-printable-ASCII runes, TrimSpace, squeezing whitespace
runs to one space), resolves the detail URL from the entry id, and
parses the two display dates; a failing cut or parse aborts the page.
A parsed date in calendar year 9999 (the sentinel of the source) is
then replaced by time.Now().  TrimSpace is modeled on the ASCII
whitespace characters. -/

def trimSpaceChar (c : Char) : Bool :=
  c == ' ' || c == '\t' || c == '\n' || c == '\x0b' || c == '\x0c' || c == '\r'

def trimSpace (s : List Char) : List Char :=
  ((s.dropWhile trimSpaceChar).reverse.dropWhile trimSpaceChar).reverse

/-- The character class of the whitespace-run regular expression. -/
def regexSpace (c : Char) : Bool :=
  c == '\t' || c == '\n' || c == '\x0c' || c == '\r' || c == ' '

/-- The printable-ASCII class; runes outside it are removed. -/
def printableAscii (c : Char) : Bool :=
  0x20 ≤ c.toNat && c.toNat ≤ 0x7e

/-- Replace every maximal run of whitespace with a single space (the
flag records whether the previous kept character closed a run). -/
def squeezeAux : Bool → List Char → List Char
  | _, [] => []
  | prevSp, c :: rest =>
    if regexSpace c then
      if prevSp then squeezeAux true rest
      else ' ' :: squeezeAux true rest
    else c :: squeezeAux false rest

/-- Go strings.TrimPrefix with the prefix "-". -/
def trimPrefixDash : List Char → List Char
  | '-' :: rest => rest
  | s => s

def cleanDescription (s : String) : String :=
  let r1 := trimSpace s.toList
  let r2 := trimPrefixDash r1
  let r3 := r2.filter printableAscii
  let r4 := trimSpace r3
  String.mk (squeezeAux false r4)

/-- Go strings.Cut at the first space; none when no space occurs. -/
def cutSpaceAux : List Char → Option (List Char × List Char)
  | [] => none
  | c :: rest =>
    if c == ' ' then some ([], rest)
    else
      match cutSpaceAux rest with
      | none => none
      | some p => some (c :: p.1, p.2)

def cutSpace (s : String) : Option (String × String) :=
  match cutSpaceAux s.toList with
  | none => none
  | some p => some (String.mk p.1, String.mk p.2)

/-- The base URL of the browser-session client. -/
def browserBase : String := "https://halifax.bidsandtenders.ca"

/-- The per-entry conversion of the browser-session List, with now
standing for the time.Now() call made for the sentinel substitution.
The dateAvailable and dateClosing fields carry the parse results of
the display strings (none for an unparseable display date). -/
def convertEntry (now : Date) (e : RawEntry) : Except String Tender :=
  match cutSpace e.title with
  | none => .error "cutting title"
  | some (id, rest0) =>
    match e.dateAvailable with
    | none => .error "parsing issued date"
    | some ida =>
      match e.dateClosing with
      | none => .error "parsing close date"
      | some cld =>
        .ok { ID := id
              URL := browserBase ++ "/Module/Tenders/en/Tender/Detail/" ++ e.id
              Description := cleanDescription rest0
              Agency := "Halifax Regional Municipality"
              IssuedDate := if ida.year == 9999 then now else ida
              CloseDate := if cld.year == 9999 then now else cld }

/-! ## Concrete data used by witnesses and counterexamples -/

def d0 : Date := ⟨2024, 5, 1⟩

def d0b : Date := ⟨2024, 5, 2⟩

def tT1 : Tender :=
  ⟨"T1", "https://portal/tenders/T1", "road work",
   "Halifax Regional Municipality", ⟨2024, 1, 10⟩, ⟨2024, 2, 1⟩⟩

def tT1b : Tender :=
  ⟨"T1", "https://portal/tenders/T1b", "road work revised",
   "Halifax Regional Municipality", ⟨2024, 1, 11⟩, ⟨2024, 2, 2⟩⟩

def tT2 : Tender :=
  ⟨"T2", "https://portal/tenders/T2", "bridge paint",
   "Halifax Regional Municipality", ⟨2024, 1, 5⟩, ⟨2024, 2, 5⟩⟩

def c3a : Tender :=
  ⟨"A", "https://portal/tenders/A", "a", "HRM", ⟨2024, 1, 5⟩, ⟨2024, 2, 5⟩⟩

def c3b : Tender :=
  ⟨"B", "https://portal/tenders/B", "b", "HRM", ⟨2024, 1, 8⟩, ⟨2024, 2, 8⟩⟩

def c3c : Tender :=
  ⟨"C", "https://portal/tenders/C", "c", "HRM", ⟨2024, 1, 10⟩, ⟨2024, 2, 10⟩⟩

/-- All tenders listed by a sequence of pages, in listing order. -/
def pagesTenders : List ListResp → List Tender
  | [] => []
  | p :: ps => p.tenders ++ pagesTenders ps

def c2cut : Date := ⟨2024, 1, 1⟩

def c2tA : Tender :=
  ⟨"A2", "https://portal/tenders/A2", "fresh one", "HRM", ⟨2024, 2, 1⟩, ⟨2024, 3, 1⟩⟩

def c2tB : Tender :=
  ⟨"B2", "https://portal/tenders/B2", "fresh two", "HRM", ⟨2024, 1, 15⟩, ⟨2024, 2, 15⟩⟩

def c2tC : Tender :=
  ⟨"C2", "https://portal/tenders/C2", "old trigger", "HRM", ⟨2023, 12, 1⟩, ⟨2024, 1, 2⟩⟩

def c2tD : Tender :=
  ⟨"D2", "https://portal/tenders/D2", "older", "HRM", ⟨2023, 11, 1⟩, ⟨2023, 12, 2⟩⟩

def c2tE : Tender :=
  ⟨"E2", "https://portal/tenders/E2", "oldest", "HRM", ⟨2023, 10, 1⟩, ⟨2023, 11, 2⟩⟩

def c2p1 : ListResp := ⟨[c2tA], "2"⟩

def c2p2 : ListResp := ⟨[c2tB, c2tC, c2tD], "3"⟩

def c2p3 : ListResp := ⟨[c2tE], ""⟩

/-- A store row whose issued date is the zero date, as produced by a
source serving the post date 0001-01-01. -/
def zeroIssuedRow : StoredRow :=
  ⟨"Z", "https://portal/tenders/Z", "zero issued", "HRM",
   ⟨1, 1, 1⟩, ⟨2024, 1, 1⟩, ⟨2024, 1, 1⟩⟩

/-- A tender whose issued date falls in year 0, which the post-date
layout 2006-01-02 can produce. -/
def year0Tender : Tender :=
  ⟨"Y0", "https://portal/tenders/Y0", "year zero", "HRM", ⟨0, 5, 1⟩, ⟨0, 6, 1⟩⟩

/-- An insert oracle that fails on the record with id T1. -/
def failT1 : Tender → Option String :=
  fun t => if t.ID == "T1" then some "insert: oops" else none

/-- A handshake response that establishes a session. -/
def goodAuth : AuthResp := ⟨200, some "jwt-token"⟩

/-- A handshake response with a non-success status. -/
def badAuth : AuthResp := ⟨500, none⟩

/-- A raw browser-session entry whose display dates carry the
far-future sentinel year 9999. -/
def raw9999 : RawEntry :=
  ⟨"88f81afc", "T999 - Snow removal", some ⟨9999, 1, 1⟩, some ⟨9999, 1, 1⟩⟩

/-- Two distinct payloads for the capture-buffer witness data. -/
def rawA : RawTenders := ⟨true, [raw9999], 1⟩

def rawB : RawTenders := ⟨true, [], 0⟩

/-! ## General lemmas about the embedding -/

theorem Date.before_eq_true_iff (a b : Date) : a.before b = true ↔ a.days < b.days := by
  simp [Date.before]

theorem Date.before_eq_false_iff (a b : Date) : a.before b = false ↔ b.days ≤ a.days := by
  simp [Date.before]

theorem storeAdd_extends (s : Store) (t : Tender) (now : Date) :
    ∃ rows, (storeAdd s t now).1 = s ++ rows := by
  unfold storeAdd
  split
  · exact ⟨[], by simp⟩
  · exact ⟨[t.toRow now], rfl⟩

/-! ## Claim C1 -/

/-- Claim C1, counterexample: the claim quantifies over every store
state, but on a store that already holds a row with the given id the
first of the two Add calls returns isNew = false, not isNew = true as
the claim demands. -/
theorem C1_counterexample : (storeAdd [tT1.toRow d0] tT1 d0).2 = false := by decide

/-- Claim C1 (amended): on a store state that does not yet hold the id,
Add called twice with the same id (different non-key fields on the
second call) inserts exactly one row, returns isNew = true then
isNew = false, and the second call is a silent no-op leaving the store
unchanged. -/
theorem C1_add_idempotent (s : Store) (t u : Tender) (now now2 : Date)
    (hid : u.ID = t.ID)
    (hfresh : s.any (fun r => r.id == t.ID) = false) :
    (storeAdd s t now).2 = true ∧
    (storeAdd s t now).1 = s ++ [t.toRow now] ∧
    (storeAdd (storeAdd s t now).1 u now2).2 = false ∧
    (storeAdd (storeAdd s t now).1 u now2).1 = (storeAdd s t now).1 := by
  have h1 : storeAdd s t now = (s ++ [t.toRow now], true) := by
    simp [storeAdd, hfresh]
  have h2 : (s ++ [t.toRow now]).any (fun r => r.id == u.ID) = true := by
    simp [Tender.toRow, hid]
  have h3 : storeAdd (s ++ [t.toRow now]) u now2 = (s ++ [t.toRow now], false) := by
    unfold storeAdd
    rw [h2]
    simp
  refine ⟨by simp [h1], by simp [h1], ?_, ?_⟩ <;> rw [h1] <;> simp [h3]

/-- Claim C1, witness: the amended theorem at a concrete store, record,
and conflicting second record. -/
theorem C1_add_idempotent_witness :
    (storeAdd [] tT1 d0).2 = true ∧
    (storeAdd [] tT1 d0).1 = [] ++ [tT1.toRow d0] ∧
    (storeAdd (storeAdd [] tT1 d0).1 tT1b d0b).2 = false ∧
    (storeAdd (storeAdd [] tT1 d0).1 tT1b d0b).1 = (storeAdd [] tT1 d0).1 :=
  C1_add_idempotent [] tT1 tT1b d0 d0b (by decide) (by decide)

/-! ## Claim C3 -/

theorem dateMaxBy_spec (f : StoredRow → Date) (rs : List StoredRow) :
    ∀ a : Date,
      (dateMaxBy f a rs = a ∨ ∃ r ∈ rs, dateMaxBy f a rs = f r) ∧
      a.days ≤ (dateMaxBy f a rs).days ∧
      ∀ r ∈ rs, (f r).days ≤ (dateMaxBy f a rs).days := by
  induction rs with
  | nil => intro a; simp [dateMaxBy]
  | cons x xs ih =>
    intro a
    by_cases hb : a.before (f x) = true
    · have hstep : dateMaxBy f a (x :: xs) = dateMaxBy f (f x) xs := by
        simp [dateMaxBy, hb]
      rcases ih (f x) with ⟨hmem, hge, hall⟩
      refine ⟨?_, ?_, ?_⟩
      · rcases hmem with h | ⟨r, hr, hr2⟩
        · exact Or.inr ⟨x, by simp, by rw [hstep, h]⟩
        · exact Or.inr ⟨r, by simp [hr], by rw [hstep, hr2]⟩
      · have hlt := (Date.before_eq_true_iff a (f x)).mp hb
        rw [hstep]; omega
      · intro r hr
        rw [hstep]
        rcases List.mem_cons.mp hr with rfl | hr2
        · exact hge
        · exact hall r hr2
    · have hb2 : (f x).days ≤ a.days :=
        (Date.before_eq_false_iff a (f x)).mp (by simpa using hb)
      have hstep : dateMaxBy f a (x :: xs) = dateMaxBy f a xs := by
        simp [dateMaxBy, hb]
      rcases ih a with ⟨hmem, hge, hall⟩
      refine ⟨?_, ?_, ?_⟩
      · rcases hmem with h | ⟨r, hr, hr2⟩
        · exact Or.inl (by rw [hstep, h])
        · exact Or.inr ⟨r, by simp [hr], by rw [hstep, hr2]⟩
      · rw [hstep]; exact hge
      · intro r hr
        rw [hstep]
        rcases List.mem_cons.mp hr with rfl | hr2
        · omega
        · exact hall r hr2

/-- The issued-date watermark really is the column maximum: for a
nonempty store it is the issued value of some row and no row exceeds
it.  (The issued and close columns are written with the day-only
layout 2006-01-02, so their parse in maxIssued round-trips exactly.) -/
theorem storeMaxIssued_spec (s : Store) (hs : s ≠ []) :
    (∃ r ∈ s, storeMaxIssued s = r.issued) ∧
    ∀ r ∈ s, r.issued.days ≤ (storeMaxIssued s).days := by
  match s with
  | [] => exact absurd rfl hs
  | r :: rs =>
    rcases dateMaxBy_spec (fun x => x.issued) rs r.issued with ⟨hmem, hge, hall⟩
    have hm : storeMaxIssued (r :: rs) = dateMaxBy (fun x => x.issued) r.issued rs := rfl
    constructor
    · rcases hmem with h | ⟨x, hx, hx2⟩
      · exact ⟨r, by simp, by rw [hm, h]⟩
      · exact ⟨x, by simp [hx], by rw [hm, hx2]⟩
    · intro x hx
      rw [hm]
      rcases List.mem_cons.mp hx with rfl | hx2
      · exact hge
      · exact hall x hx2

/-- The first-observed watermark the code computes is the zero time on
every store: NULL on an empty table, and a swallowed parse failure of
the serialized timestamp text otherwise. -/
theorem storeMaxObserved_eq_zero : ∀ s : Store, storeMaxObserved s = zeroDate := by
  intro s
  cases s <;> rfl

/-- Claim C3, code-bug demonstration: the issued-date half of the
claim holds (zero watermark on an empty store; watermark d3 after
inserting issued dates d1 < d2 < d3), but the first-observed half does
not: store.add writes time.Now() through the sqlite driver in the
timestamp layout 2006-01-02 15:04:05.999999999-07:00, and maxObserved
parses the column text back with the day-only layout 2006-01-02,
which always fails on the trailing clock text; the swallowed-error
path then returns the zero time.  On a concrete two-row store whose
first-observed column maximum is 2024-05-02, maxObserved returns the
zero date instead of that maximum. -/
theorem C3_watermark_bug :
    (storeMaxIssued [] = zeroDate ∧ storeMaxObserved [] = zeroDate) ∧
    (Date.before ⟨2024, 1, 5⟩ ⟨2024, 1, 8⟩ = true ∧
     Date.before ⟨2024, 1, 8⟩ ⟨2024, 1, 10⟩ = true ∧
     storeMaxIssued
       (storeAdd (storeAdd (storeAdd [] c3a d0).1 c3b d0).1 c3c d0).1 = ⟨2024, 1, 10⟩) ∧
    (∀ s : Store, storeMaxObserved s = zeroDate) ∧
    ((∃ r ∈ ([tT1.toRow d0, tT2.toRow d0b] : Store), r.firstObserved = d0b) ∧
     (∀ r ∈ ([tT1.toRow d0, tT2.toRow d0b] : Store), r.firstObserved.days ≤ d0b.days) ∧
     storeMaxObserved [tT1.toRow d0, tT2.toRow d0b] = zeroDate ∧
     zeroDate ≠ d0b) :=
  ⟨⟨rfl, rfl⟩, by decide, storeMaxObserved_eq_zero, by decide⟩

/-! ## Driver lemmas shared by C2, C4, C5 and C7 -/

theorem addAll_cons (now : Date) (st : Store) (t : Tender) (l : List Tender) :
    addAll now st (t :: l) =
      ((addAll now (storeAdd st t now).1 l).1,
       if (storeAdd st t now).2 then t :: (addAll now (storeAdd st t now).1 l).2
       else (addAll now (storeAdd st t now).1 l).2) := rfl

theorem addPageE_cons_false (now : Date) (cmp : Tender → Bool) (t : Tender)
    (l : List Tender) (st : Store) (nt : List Tender) (hc : cmp t = false) :
    addPageE noAddFail now cmp st nt (t :: l) =
      addPageE noAddFail now cmp (storeAdd st t now).1
        (if (storeAdd st t now).2 then nt ++ [t] else nt) l := by
  simp [addPageE, noAddFail, hc]

theorem addPageE_cons_true (now : Date) (cmp : Tender → Bool) (t : Tender)
    (l : List Tender) (st : Store) (nt : List Tender) (hc : cmp t = true) :
    addPageE noAddFail now cmp st nt (t :: l) =
      ((storeAdd st t now).1,
       .ok (if (storeAdd st t now).2 then nt ++ [t] else nt, true)) := by
  simp [addPageE, noAddFail, hc]

theorem addPageE_cons_ok (failAdd : Tender → Option String) (now : Date)
    (cmp : Tender → Bool) (t : Tender) (l : List Tender) (st : Store)
    (nt : List Tender) (hfa : failAdd t = none) :
    addPageE failAdd now cmp st nt (t :: l) =
      (if cmp t then
        ((storeAdd st t now).1,
         .ok (if (storeAdd st t now).2 then nt ++ [t] else nt, true))
       else addPageE failAdd now cmp (storeAdd st t now).1
         (if (storeAdd st t now).2 then nt ++ [t] else nt) l) := by
  simp only [addPageE, hfa]

theorem addAll_append (now : Date) (l1 l2 : List Tender) :
    ∀ st : Store,
      addAll now st (l1 ++ l2) =
        ((addAll now (addAll now st l1).1 l2).1,
         (addAll now st l1).2 ++ (addAll now (addAll now st l1).1 l2).2) := by
  induction l1 with
  | nil => intro st; simp [addAll]
  | cons t ts ih =>
    intro st
    rw [List.cons_append, addAll_cons, addAll_cons, ih]
    cases (storeAdd st t now).2 <;> simp

theorem addPageE_no_hit (now : Date) (cmp : Tender → Bool) :
    ∀ (l : List Tender), (∀ t ∈ l, cmp t = false) →
      ∀ (st : Store) (nt : List Tender),
        addPageE noAddFail now cmp st nt l =
          ((addAll now st l).1, .ok (nt ++ (addAll now st l).2, false)) := by
  intro l
  induction l with
  | nil => intro _ st nt; simp [addPageE, addAll]
  | cons t ts ih =>
    intro h st nt
    have hc : cmp t = false := h t (by simp)
    have hrest : ∀ x ∈ ts, cmp x = false := fun x hx => h x (by simp [hx])
    rw [addPageE_cons_false now cmp t ts st nt hc, ih hrest, addAll_cons]
    cases (storeAdd st t now).2 <;> simp

theorem addPageE_hit (now : Date) (cmp : Tender → Bool) :
    ∀ (pre : List Tender) (tr : Tender) (post : List Tender),
      (∀ t ∈ pre, cmp t = false) → cmp tr = true →
      ∀ (st : Store) (nt : List Tender),
        addPageE noAddFail now cmp st nt (pre ++ tr :: post) =
          ((addAll now st (pre ++ [tr])).1,
           .ok (nt ++ (addAll now st (pre ++ [tr])).2, true)) := by
  intro pre
  induction pre with
  | nil =>
    intro tr post _ htr st nt
    rw [List.nil_append, addPageE_cons_true now cmp tr post st nt htr,
        List.nil_append, addAll_cons]
    cases (storeAdd st tr now).2 <;> simp [addAll]
  | cons t ts ih =>
    intro tr post hpre htr st nt
    have hc : cmp t = false := hpre t (by simp)
    have hrest : ∀ x ∈ ts, cmp x = false := fun x hx => hpre x (by simp [hx])
    rw [List.cons_append, addPageE_cons_false now cmp t (ts ++ tr :: post) st nt hc,
        ih tr post hrest htr, List.cons_append, addAll_cons]
    cases (storeAdd st t now).2 <;> simp

theorem findNewLoopE_step_no_hit (now : Date) (cmp : Tender → Bool) (pg : ListResp)
    (h : ∀ t ∈ pg.tenders, cmp t = false) (htok : pg.nextToken ≠ "")
    (st : Store) (nt : List Tender) (rest : List (Except String ListResp)) :
    findNewLoopE noAddFail now cmp st nt (.ok pg :: rest) =
      (let r := findNewLoopE noAddFail now cmp (addAll now st pg.tenders).1
          (nt ++ (addAll now st pg.tenders).2) rest
       (r.1, r.2.1, r.2.2.1 + 1, r.2.2.2)) := by
  simp only [findNewLoopE]
  rw [addPageE_no_hit now cmp pg.tenders h st nt]
  simp [htok]

theorem findNewLoopE_step_hit (now : Date) (cmp : Tender → Bool) (pg : ListResp)
    (pre : List Tender) (tr : Tender) (post : List Tender)
    (hpg : pg.tenders = pre ++ tr :: post)
    (hpre : ∀ t ∈ pre, cmp t = false) (htr : cmp tr = true)
    (st : Store) (nt : List Tender) (rest : List (Except String ListResp)) :
    findNewLoopE noAddFail now cmp st nt (.ok pg :: rest) =
      ((addAll now st (pre ++ [tr])).1,
       .ok (nt ++ (addAll now st (pre ++ [tr])).2), 1, false) := by
  simp only [findNewLoopE, hpg]
  rw [addPageE_hit now cmp pre tr post hpre htr st nt]
  simp

theorem findNewLoopE_front (now : Date) (cmp : Tender → Bool) :
    ∀ (front : List ListResp),
      (∀ p ∈ front, (∀ t ∈ p.tenders, cmp t = false) ∧ p.nextToken ≠ "") →
      ∀ (st : Store) (nt : List Tender) (rest : List (Except String ListResp)),
        findNewLoopE noAddFail now cmp st nt (okScript front ++ rest) =
          (let a := addAll now st (pagesTenders front)
           let r := findNewLoopE noAddFail now cmp a.1 (nt ++ a.2) rest
           (r.1, r.2.1, r.2.2.1 + front.length, r.2.2.2)) := by
  intro front
  induction front with
  | nil => intro _ st nt rest; simp [okScript, pagesTenders, addAll]
  | cons p ps ih =>
    intro h st nt rest
    have hp := h p (by simp)
    have hps : ∀ q ∈ ps, (∀ t ∈ q.tenders, cmp t = false) ∧ q.nextToken ≠ "" :=
      fun q hq => h q (by simp [hq])
    rw [show okScript (p :: ps) ++ rest = .ok p :: (okScript ps ++ rest) from rfl]
    rw [findNewLoopE_step_no_hit now cmp p hp.1 hp.2 st nt]
    rw [ih hps]
    simp only [pagesTenders]
    rw [addAll_append now p.tenders (pagesTenders ps) st]
    simp [List.append_assoc, Nat.add_assoc]

/-! ## Claim C2 -/

/-- Claim C2: for every cutoff and every scripted page sequence, as
soon as the driver processes a record whose issued date is strictly
before the cutoff it stops immediately, even mid-page (the records
after the trigger and all later pages are untouched), and makes no
further List call (exactly front.length + 1 calls); the trigger is
still passed to Add, and the output is exactly the records newly
inserted during the run, in listing order, trigger included when it
was newly inserted. -/
theorem C2_early_exit (now cutoff : Date) (st : Store)
    (front : List ListResp) (pg : ListResp) (rest : List (Except String ListResp))
    (pre : List Tender) (tr : Tender) (post : List Tender)
    (hpg : pg.tenders = pre ++ tr :: post)
    (hfront : ∀ p ∈ front,
      (∀ t ∈ p.tenders, t.IssuedDate.before cutoff = false) ∧ p.nextToken ≠ "")
    (hpre : ∀ t ∈ pre, t.IssuedDate.before cutoff = false)
    (htr : tr.IssuedDate.before cutoff = true) :
    findNewLoopE noAddFail now (fun t => t.IssuedDate.before cutoff) st []
        (okScript front ++ .ok pg :: rest) =
      ((addAll now st (pagesTenders front ++ (pre ++ [tr]))).1,
       .ok (addAll now st (pagesTenders front ++ (pre ++ [tr]))).2,
       front.length + 1, false) := by
  rw [findNewLoopE_front now _ front hfront st [] (.ok pg :: rest)]
  dsimp only
  rw [findNewLoopE_step_hit now _ pg pre tr post hpg hpre htr]
  rw [addAll_append now (pagesTenders front) (pre ++ [tr]) st]
  simp [Nat.add_comm]

/-- Claim C2, witness: a three-page script with the trigger in the
middle of page two; the driver makes exactly two List calls and its
output is the newly inserted records up to and including the trigger. -/
theorem C2_early_exit_witness :
    findNewLoopE noAddFail d0 (fun t => t.IssuedDate.before c2cut) [] []
        (okScript [c2p1] ++ .ok c2p2 :: [.ok c2p3]) =
      ((addAll d0 [] (pagesTenders [c2p1] ++ ([c2tB] ++ [c2tC]))).1,
       .ok (addAll d0 [] (pagesTenders [c2p1] ++ ([c2tB] ++ [c2tC]))).2,
       [c2p1].length + 1, false) :=
  C2_early_exit d0 c2cut [] [c2p1] c2p2 [.ok c2p3] [c2tB] c2tC [c2tD]
    (by decide) (by decide) (by decide) (by decide)

/-! ## Claim C4 -/

theorem addPageE_congr (failAdd : Tender → Option String) (now : Date)
    (cmp1 cmp2 : Tender → Bool) :
    ∀ (l : List Tender), (∀ t ∈ l, cmp1 t = cmp2 t) →
      ∀ (st : Store) (nt : List Tender),
        addPageE failAdd now cmp1 st nt l = addPageE failAdd now cmp2 st nt l := by
  intro l
  induction l with
  | nil => intro _ st nt; rfl
  | cons t ts ih =>
    intro h st nt
    have ht : cmp1 t = cmp2 t := h t (by simp)
    have hts : ∀ x ∈ ts, cmp1 x = cmp2 x := fun x hx => h x (by simp [hx])
    cases hfa : failAdd t with
    | some e => simp [addPageE, hfa]
    | none =>
      simp only [addPageE, hfa, ht]
      by_cases hc : cmp2 t = true
      · simp [hc]
      · simp only [Bool.not_eq_true] at hc
        simp [hc, ih hts]

theorem findNewLoopE_congr (failAdd : Tender → Option String) (now : Date)
    (cmp1 cmp2 : Tender → Bool) :
    ∀ (pages : List ListResp),
      (∀ p ∈ pages, ∀ t ∈ p.tenders, cmp1 t = cmp2 t) →
      ∀ (st : Store) (nt : List Tender),
        findNewLoopE failAdd now cmp1 st nt (okScript pages) =
          findNewLoopE failAdd now cmp2 st nt (okScript pages) := by
  intro pages
  induction pages with
  | nil => intro _ st nt; rfl
  | cons p ps ih =>
    intro h st nt
    have hp : ∀ t ∈ p.tenders, cmp1 t = cmp2 t := h p (by simp)
    have hps : ∀ q ∈ ps, ∀ t ∈ q.tenders, cmp1 t = cmp2 t :=
      fun q hq => h q (by simp [hq])
    show findNewLoopE failAdd now cmp1 st nt (.ok p :: okScript ps) =
      findNewLoopE failAdd now cmp2 st nt (.ok p :: okScript ps)
    simp only [findNewLoopE, addPageE_congr failAdd now cmp1 cmp2 p.tenders hp st nt]
    rcases addPageE failAdd now cmp2 st nt p.tenders with ⟨st1, e | ⟨nt1, hit⟩⟩
    · rfl
    · cases hit
      · by_cases htk : (p.nextToken == "") = true
        · simp [htk]
        · simp [htk, ih hps]
      · simp

theorem findNewLoopE_consumes_all (now : Date) :
    ∀ (pages : List ListResp), (∀ p ∈ pages, p.nextToken ≠ "") →
      ∀ (st : Store) (nt : List Tender),
        (findNewLoopE noAddFail now (fun _ => false) st nt (okScript pages)).2.2 =
          (pages.length, true) := by
  intro pages
  induction pages with
  | nil => intro _ st nt; rfl
  | cons p ps ih =>
    intro h st nt
    have hp : p.nextToken ≠ "" := h p (by simp)
    have hps : ∀ q ∈ ps, q.nextToken ≠ "" := fun q hq => h q (by simp [hq])
    show (findNewLoopE noAddFail now (fun _ => false) st nt (.ok p :: okScript ps)).2.2 = _
    rw [findNewLoopE_step_no_hit now (fun _ => false) p (by simp) hp st nt]
    dsimp only
    rw [ih hps (addAll now st p.tenders).1 (nt ++ (addAll now st p.tenders).2)]
    simp

/-- Claim C4, counterexample: the claim fails in two places.  A
non-empty store whose maximum issued date is the zero date (the layout
2006-01-02 parses 0001-01-01 to the Go zero time) keeps the zero
cutoff instead of watermark minus one month, because findNew tests the
watermark for zero rather than the store for emptiness.  And on an
empty store the comparison is against the zero date rather than absent
entirely, so a record dated in year 0 fires the early exit on a first
run: the driver stops after one List call instead of paging through
both pages of the source. -/
theorem C4_counterexample :
    (([zeroIssuedRow] : Store) ≠ [] ∧
     issuedStart [zeroIssuedRow] ≠ (storeMaxIssued [zeroIssuedRow]).addDate 0 (-1) 0) ∧
    (findNewIssuedE noAddFail [] d0
        (okScript [⟨[year0Tender], "2"⟩, ⟨[tT2], ""⟩])).2.2.1 = 1 := by
  decide

/-- Claim C4 (amended): under the issued-date policy the cutoff equals
the watermark minus one month whenever the watermark is non-zero
(equivalently, some stored record has an issued date after 0001-01-01);
the early-exit comparison uses the issued date of each record; on an
empty store the cutoff is the zero date, so for sources whose issued
dates never precede 0001-01-01 the early exit never fires and the
driver consumes every scripted page while nextToken stays nonempty. -/
theorem C4_issued_policy :
    (∀ st : Store, (storeMaxIssued st).isZero = false →
      issuedStart st = (storeMaxIssued st).addDate 0 (-1) 0) ∧
    (∀ (failAdd : Tender → Option String) (st : Store) (now : Date)
        (script : List (Except String ListResp)),
      findNewIssuedE failAdd st now script =
        findNewLoopE failAdd now (fun t => t.IssuedDate.before (issuedStart st)) st [] script) ∧
    issuedStart [] = zeroDate ∧
    (∀ (now : Date) (pages : List ListResp),
      (∀ p ∈ pages, ∀ t ∈ p.tenders, t.IssuedDate.before zeroDate = false) →
      findNewIssuedE noAddFail [] now (okScript pages) =
        findNewLoopE noAddFail now (fun _ => false) [] [] (okScript pages)) ∧
    (∀ (now : Date) (pages : List ListResp),
      (∀ p ∈ pages, p.nextToken ≠ "") →
      ∀ (st : Store) (nt : List Tender),
        (findNewLoopE noAddFail now (fun _ => false) st nt (okScript pages)).2.2 =
          (pages.length, true)) := by
  refine ⟨?_, fun _ _ _ _ => rfl, rfl, ?_, findNewLoopE_consumes_all⟩
  · intro st h
    simp [issuedStart, h]
  · intro now pages h
    have e : issuedStart ([] : Store) = zeroDate := rfl
    unfold findNewIssuedE
    simp only [e]
    exact findNewLoopE_congr noAddFail now _ _ pages h [] []

/-- Claim C4, witness: the amended conjuncts applied to a concrete
non-zero-watermark store and a concrete single-page source. -/
theorem C4_issued_policy_witness :
    issuedStart [tT1.toRow d0] = (storeMaxIssued [tT1.toRow d0]).addDate 0 (-1) 0 ∧
    findNewIssuedE noAddFail [] d0 (okScript [c2p1]) =
      findNewLoopE noAddFail d0 (fun _ => false) [] [] (okScript [c2p1]) ∧
    (findNewLoopE noAddFail d0 (fun _ => false) [] [] (okScript [c2p1])).2.2 =
      ([c2p1].length, true) :=
  ⟨C4_issued_policy.1 [tT1.toRow d0] (by decide),
   C4_issued_policy.2.2.2.1 d0 [c2p1] (by decide),
   C4_issued_policy.2.2.2.2 d0 [c2p1] (by decide) [] []⟩

/-! ## Claim C5 -/

/-- Claim C5, counterexample: the claim fails on both store states.
On an empty store the cutoff does not collapse to now — the code
subtracts the four-month margin from now as well.  And on a non-empty
store the cutoff is not the first-observed watermark minus four
months: the first-observed watermark the code computes is always the
zero time (maxObserved parses the sqlite timestamp text with the
day-only layout and swallows the failure), so the cutoff is again now
minus four months — here 2024-07-08 instead of 2024-01-01 for a store
first observed on 2024-05-01. -/
theorem C5_counterexample :
    observedCutoff [] ⟨2024, 11, 8⟩ ≠ (⟨2024, 11, 8⟩ : Date) ∧
    observedCutoff [tT1.toRow d0] ⟨2024, 11, 8⟩ ≠ d0.addDate 0 (-4) 0 := by decide

/-- Claim C5 (amended): under the first-observed policy the early-exit
comparison uses the close date of each record, and the cutoff the
driver computes is now minus four months for every store state: the
watermark the code obtains is the zero time on every store (empty
table, or failed parse of the serialized timestamp), so it always
collapses to now before the four-month subtraction. -/
theorem C5_observed_policy :
    (∀ (st : Store) (now : Date), observedCutoff st now = now.addDate 0 (-4) 0) ∧
    (∀ (failAdd : Tender → Option String) (st : Store) (now : Date)
        (script : List (Except String ListResp)),
      findNewObservedE failAdd st now script =
        findNewLoopE failAdd now (fun t => t.CloseDate.before (observedCutoff st now))
          st [] script) := by
  refine ⟨?_, fun _ _ _ _ => rfl⟩
  intro st now
  have hz : zeroDate.isZero = true := rfl
  simp [observedCutoff, storeMaxObserved_eq_zero st, hz]

/-! ## Claim C7 -/

theorem addPageE_store_extends (failAdd : Tender → Option String) (now : Date)
    (cmp : Tender → Bool) :
    ∀ (l : List Tender) (st : Store) (nt : List Tender),
      ∃ rows, (addPageE failAdd now cmp st nt l).1 = st ++ rows := by
  intro l
  induction l with
  | nil => intro st nt; exact ⟨[], by simp [addPageE]⟩
  | cons t ts ih =>
    intro st nt
    cases hfa : failAdd t with
    | some e => exact ⟨[], by simp [addPageE, hfa]⟩
    | none =>
      rcases storeAdd_extends st t now with ⟨r0, hr0⟩
      rw [addPageE_cons_ok failAdd now cmp t ts st nt hfa]
      by_cases hc : cmp t = true
      · exact ⟨r0, by simp [hc, hr0]⟩
      · simp only [Bool.not_eq_true] at hc
        rcases ih (storeAdd st t now).1
            (if (storeAdd st t now).2 then nt ++ [t] else nt) with ⟨r1, hr1⟩
        refine ⟨r0 ++ r1, ?_⟩
        simp only [hc, Bool.false_eq_true, if_false]
        rw [hr1, hr0, List.append_assoc]

theorem findNewLoopE_store_extends (failAdd : Tender → Option String) (now : Date)
    (cmp : Tender → Bool) :
    ∀ (script : List (Except String ListResp)) (st : Store) (nt : List Tender),
      ∃ rows, (findNewLoopE failAdd now cmp st nt script).1 = st ++ rows := by
  intro script
  induction script with
  | nil => intro st nt; exact ⟨[], by simp [findNewLoopE]⟩
  | cons x rest ih =>
    intro st nt
    cases x with
    | error e => exact ⟨[], by simp [findNewLoopE]⟩
    | ok pg =>
      rcases h0 : addPageE failAdd now cmp st nt pg.tenders with ⟨st1, res⟩
      have hst1 : ∃ r0, st1 = st ++ r0 := by
        rcases addPageE_store_extends failAdd now cmp pg.tenders st nt with ⟨r0, hr0⟩
        exact ⟨r0, by rw [← hr0, h0]⟩
      rcases hst1 with ⟨r0, hr0⟩
      cases res with
      | error e => exact ⟨r0, by simp [findNewLoopE, h0, hr0]⟩
      | ok pr =>
        rcases pr with ⟨nt1, hit⟩
        by_cases hh : hit = true
        · exact ⟨r0, by simp [findNewLoopE, h0, hh, hr0]⟩
        · simp only [Bool.not_eq_true] at hh
          by_cases htk : (pg.nextToken == "") = true
          · exact ⟨r0, by simp [findNewLoopE, h0, hh, htk, hr0]⟩
          · rcases ih st1 nt1 with ⟨r1, hr1⟩
            refine ⟨r0 ++ r1, ?_⟩
            simp only [findNewLoopE, h0, hh, htk, Bool.false_eq_true, if_false]
            rw [hr1, hr0, List.append_assoc]

/-- Claim C7: every failure aborts the run immediately with that error
and no result list: a failing List call (session bootstrap, transport
status, payload shape, date parse and the empty capture queue all
surface as the List error) is returned at once with no further call,
and a failing store insert aborts the page and then the run the same
way; in all cases the store remains extended by exactly the rows
committed before the failure, and a re-run is safe because adding an
already-inserted record is a no-op. -/
theorem C7_error_propagation :
    (∀ (failAdd : Tender → Option String) (now : Date) (cmp : Tender → Bool)
        (st : Store) (nt : List Tender) (e : String)
        (rest : List (Except String ListResp)),
      findNewLoopE failAdd now cmp st nt (.error e :: rest) = (st, .error e, 1, false)) ∧
    (∀ (failAdd : Tender → Option String) (now : Date) (cmp : Tender → Bool)
        (st : Store) (nt : List Tender) (t : Tender) (l : List Tender) (e : String),
      failAdd t = some e →
      addPageE failAdd now cmp st nt (t :: l) = (st, .error e)) ∧
    (∀ (failAdd : Tender → Option String) (now : Date) (cmp : Tender → Bool)
        (st : Store) (nt : List Tender) (pg : ListResp)
        (rest : List (Except String ListResp)) (st1 : Store) (e : String),
      addPageE failAdd now cmp st nt pg.tenders = (st1, .error e) →
      findNewLoopE failAdd now cmp st nt (.ok pg :: rest) = (st1, .error e, 1, false)) ∧
    (∀ (failAdd : Tender → Option String) (now : Date) (cmp : Tender → Bool)
        (st : Store) (nt : List Tender) (script : List (Except String ListResp)),
      ∃ rows, (findNewLoopE failAdd now cmp st nt script).1 = st ++ rows) ∧
    (∀ (s : Store) (t : Tender) (now now2 : Date),
      storeAdd (storeAdd s t now).1 t now2 = ((storeAdd s t now).1, false)) := by
  refine ⟨fun _ _ _ _ _ _ _ => rfl, ?_, ?_,
    fun failAdd now cmp st nt script => findNewLoopE_store_extends failAdd now cmp script st nt,
    ?_⟩
  · intro failAdd now cmp st nt t l e h
    simp [addPageE, h]
  · intro failAdd now cmp st nt pg rest st1 e h
    simp [findNewLoopE, h]
  · intro s t now now2
    by_cases h : s.any (fun r => r.id == t.ID) = true
    · have h1 : storeAdd s t now = (s, false) := by simp [storeAdd, h]
      rw [h1]
      simp [storeAdd, h]
    · simp only [Bool.not_eq_true] at h
      have h1 : storeAdd s t now = (s ++ [t.toRow now], true) := by simp [storeAdd, h]
      rw [h1]
      have h2 : (s ++ [t.toRow now]).any (fun r => r.id == t.ID) = true := by
        simp [Tender.toRow]
      unfold storeAdd
      rw [h2]
      simp

/-- Claim C7, witness: a failing insert aborts with its error and an
empty committed store, a failing List call propagates its error after
one call, and a finished run extends the initial store. -/
theorem C7_error_propagation_witness :
    addPageE failT1 d0 (fun _ => false) [] [] [tT1] = ([], .error "insert: oops") ∧
    findNewLoopE failT1 d0 (fun _ => false) [] [] [.error "got status 500"] =
      ([], .error "got status 500", 1, false) ∧
    ∃ rows, (findNewLoopE noAddFail d0 (fun _ => false) [] [] (okScript [c2p1])).1 =
      [] ++ rows :=
  ⟨C7_error_propagation.2.1 failT1 d0 (fun _ => false) [] [] tT1 [] "insert: oops" (by decide),
   C7_error_propagation.1 failT1 d0 (fun _ => false) [] [] "got status 500" [],
   C7_error_propagation.2.2.2.1 noAddFail d0 (fun _ => false) [] [] (okScript [c2p1])⟩

/-! ## Claim C8 -/

theorem initClient_spec (c : ClientSession) (resp : AuthResp) :
    ((initClient c resp).2 = .ok () → (initClient c resp).1.ready = true) ∧
    (∀ e, (initClient c resp).2 = .error e → initClient c resp = (c, .error e)) := by
  unfold initClient
  split
  next h => simp [h]
  next h =>
    split
    next => simp
    next =>
      split
      · simp
      · split <;> simp

theorem listSession_preserves_ready (c : ClientSession) (a : AuthResp)
    (f : Except String (List Tender × String)) (h : c.ready = true) :
    (listSession c a f).1 = c := by
  simp [listSession, initClient, h]

theorem runListCalls_ready :
    ∀ (calls : List (AuthResp × Except String (List Tender × String)))
      (c : ClientSession), c.ready = true → (runListCalls c calls).2 = 0 := by
  intro calls
  induction calls with
  | nil => intro c _; rfl
  | cons x rest ih =>
    intro c h
    rcases x with ⟨a, f⟩
    simp only [runListCalls, h]
    rw [listSession_preserves_ready c a f h]
    simp [ih c h]

/-- Claim C8: session establishment is lazy and happens at most once
per client instance: with the ready flag set, init is a no-op leaving
the client untouched; a successful establishment sets the ready flag,
so a call sequence whose first call establishes the session performs
exactly one establishment attempt over the whole sequence; and when
establishment fails, that List call returns the establishment error
without fetching a page and leaves the client unestablished. -/
theorem C8_session_once :
    (∀ (c : ClientSession) (resp : AuthResp), c.ready = true →
      initClient c resp = (c, .ok ())) ∧
    (∀ (c : ClientSession) (resp : AuthResp),
      (initClient c resp).2 = .ok () → (initClient c resp).1.ready = true) ∧
    (∀ (c : ClientSession) (resp : AuthResp)
        (f : Except String (List Tender × String)) (e : String),
      (initClient c resp).2 = .error e →
      listSession c resp f = (c, false, .error e)) ∧
    (∀ (c : ClientSession) (a : AuthResp)
        (f : Except String (List Tender × String))
        (rest : List (AuthResp × Except String (List Tender × String))),
      c.ready = false → (initClient c a).2 = .ok () →
      (runListCalls c ((a, f) :: rest)).2 = 1) := by
  refine ⟨?_, fun c resp => (initClient_spec c resp).1, ?_, ?_⟩
  · intro c resp h
    simp [initClient, h]
  · intro c resp f e h
    have h2 := (initClient_spec c resp).2 e h
    simp [listSession, h2]
  · intro c a f rest hr hok
    have hready := (initClient_spec c a).1 hok
    have hc1 : (listSession c a f).1 = (initClient c a).1 := by
      unfold listSession
      rcases hini : initClient c a with ⟨c1, r⟩
      cases r <;> simp
    have h2 : (runListCalls (listSession c a f).1 rest).2 = 0 :=
      runListCalls_ready rest _ (by rw [hc1]; exact hready)
    simp only [runListCalls, hr]
    simp [h2]

/-- Claim C8, witness: an established client is untouched by init, a
failed handshake makes List return the error with no page fetch, and a
sequence whose first call succeeds performs exactly one establishment
attempt. -/
theorem C8_session_once_witness :
    initClient ⟨true, "tok"⟩ badAuth = (⟨true, "tok"⟩, .ok ()) ∧
    listSession ⟨false, ""⟩ badAuth (.ok ([], "")) = (⟨false, ""⟩, false, .error "got status") ∧
    (runListCalls ⟨false, ""⟩ [(goodAuth, .ok ([], "")), (badAuth, .error "x")]).2 = 1 :=
  ⟨C8_session_once.1 ⟨true, "tok"⟩ badAuth rfl,
   C8_session_once.2.2.1 ⟨false, ""⟩ badAuth (.ok ([], "")) "got status" rfl,
   C8_session_once.2.2.2 ⟨false, ""⟩ goodAuth (.ok ([], "")) [(badAuth, .error "x")]
     rfl rfl⟩

/-! ## Claim C9 -/

theorem hookAppend_eq_append (q : List RawTenders) (url : String)
    (body : Option RawTenders) :
    hookAppend q url body = q ++ hookAppend [] url body := by
  unfold hookAppend
  split
  · cases body <;> simp
  · simp

/-- Claim C9: the capture buffer is FIFO from every queue state and
under every interleaving of hook executions and List dequeues: the
successfully dequeued payloads are exactly a prefix of the initial
queue followed by the enqueued payloads in enqueue order (so payloads
enqueued A then B are dequeued A then B), the remaining queue is the
corresponding suffix, and a dequeue from an empty queue fails with the
no-responses error instead of blocking. -/
theorem C9_fifo :
    (∀ (q0 : List RawTenders) (ops : List BufOp), ∃ d : Nat,
      successesOf (runBuf q0 ops).2 = (q0 ++ enqueuedOf ops).take d ∧
      (runBuf q0 ops).1 = (q0 ++ enqueuedOf ops).drop d) ∧
    bufDequeue [] = ([], .error "no responses") := by
  refine ⟨?_, rfl⟩
  intro q0 ops
  induction ops generalizing q0 with
  | nil => exact ⟨0, by simp [runBuf, successesOf, enqueuedOf]⟩
  | cons op rest ih =>
    cases op with
    | response url body =>
      rcases ih (hookAppend q0 url body) with ⟨d, h1, h2⟩
      refine ⟨d, ?_, ?_⟩
      · show successesOf (runBuf (hookAppend q0 url body) rest).2 = _
        rw [h1, hookAppend_eq_append]
        simp [enqueuedOf, List.append_assoc]
      · show (runBuf (hookAppend q0 url body) rest).1 = _
        rw [h2, hookAppend_eq_append]
        simp [enqueuedOf, List.append_assoc]
    | dequeue =>
      cases q0 with
      | nil =>
        rcases ih [] with ⟨d, h1, h2⟩
        refine ⟨d, ?_, ?_⟩
        · show successesOf (.error "no responses" :: (runBuf [] rest).2) = _
          rw [show successesOf (.error "no responses" :: (runBuf [] rest).2) =
            successesOf (runBuf [] rest).2 from rfl]
          rw [h1]
          simp [enqueuedOf]
        · show (runBuf [] rest).1 = _
          rw [h2]
          simp [enqueuedOf]
      | cons x q1 =>
        rcases ih q1 with ⟨d, h1, h2⟩
        refine ⟨d + 1, ?_, ?_⟩
        · show successesOf (.ok x :: (runBuf q1 rest).2) = _
          rw [show successesOf (.ok x :: (runBuf q1 rest).2) =
            x :: successesOf (runBuf q1 rest).2 from rfl]
          rw [h1]
          simp [enqueuedOf]
        · show (runBuf q1 rest).1 = _
          rw [h2]
          simp [enqueuedOf]

/-! ## Claim C6 -/

theorem toDigitsCore_len_ge (b : Nat) :
    ∀ (f n : Nat) (ds : List Char), ds.length ≤ (Nat.toDigitsCore b f n ds).length := by
  intro f
  induction f with
  | zero => intro n ds; simp [Nat.toDigitsCore]
  | succ f ih =>
    intro n ds
    unfold Nat.toDigitsCore
    dsimp only
    split
    · simp
    · calc ds.length ≤ (Nat.digitChar (n % b) :: ds).length := by simp
        _ ≤ _ := ih (n / b) (Nat.digitChar (n % b) :: ds)

theorem natRepr_ne_empty (n : Nat) : Nat.repr n ≠ "" := by
  have h : 1 ≤ (Nat.toDigits 10 n).length := by
    unfold Nat.toDigits Nat.toDigitsCore
    dsimp only
    split
    · simp
    · calc 1 ≤ ([Nat.digitChar (n % 10)] : List Char).length := by simp
        _ ≤ _ := toDigitsCore_len_ge 10 n (n / 10) [Nat.digitChar (n % 10)]
  intro hcon
  have h2 : Nat.toDigits 10 n = [] := by
    have h3 := congrArg String.data hcon
    simpa [Nat.repr, List.asString] using h3
  rw [h2] at h
  simp at h

/-- Claim C6, counterexample: on a source holding exactly one tender,
page 1 of the token-session client serves that tender and nothing
remains after it — it is the last page — yet List hands back the
nonempty cursor 2, so an empty nextCursor is not equivalent to this
having been the last page. -/
theorem C6_counterexample :
    remainingAfter 25 [tT1] 1 = [] ∧ (tokenList [tT1] 1).2 ≠ "" := by decide

/-- Claim C6 (amended): the token-session client returns an empty
nextCursor iff the fetched page is empty, and the form-session client
iff the fetched page has fewer than 100 records; an empty cursor
therefore implies that nothing remains after the page, but the
converse fails: a nonempty (token variant) or exactly full (form
variant) final data page yields a nonempty cursor and the driver
issues one further call that returns an empty page. -/
theorem C6_cursor :
    (∀ (src : List Tender) (page : Nat),
      ((tokenList src page).2 = "" ↔ (tokenList src page).1 = [])) ∧
    (∀ (src : List Tender) (page : Nat),
      ((formList src page).2 = "" ↔ (formList src page).1.length < 100)) ∧
    (∀ (src : List Tender) (page : Nat), 1 ≤ page →
      (tokenList src page).2 = "" → remainingAfter 25 src page = []) ∧
    (∀ (src : List Tender) (page : Nat), 1 ≤ page →
      (formList src page).2 = "" → remainingAfter 100 src page = []) := by
  have htok : ∀ (src : List Tender) (page : Nat),
      ((tokenList src page).2 = "" ↔ (tokenList src page).1 = []) := by
    intro src page
    show (tokenNextToken page (pageSlice 25 src page) = "") ↔ pageSlice 25 src page = []
    unfold tokenNextToken
    by_cases h : (pageSlice 25 src page).length > 0
    · rw [if_pos h]
      constructor
      · intro hcon; exact absurd hcon (natRepr_ne_empty (page + 1))
      · intro hnil; rw [hnil] at h; simp at h
    · rw [if_neg h]
      have hnil : pageSlice 25 src page = [] := by
        have := Nat.eq_zero_of_not_pos h
        exact List.length_eq_zero.mp this
      simp [hnil]
  have hform : ∀ (src : List Tender) (page : Nat),
      ((formList src page).2 = "" ↔ (formList src page).1.length < 100) := by
    intro src page
    show (formNextToken page (pageSlice 100 src page) = "") ↔
      (pageSlice 100 src page).length < 100
    unfold formNextToken
    by_cases h : (pageSlice 100 src page).length ≥ 100
    · rw [if_pos h]
      constructor
      · intro hcon; exact absurd hcon (natRepr_ne_empty (page + 1))
      · intro hlt; omega
    · rw [if_neg h]
      constructor
      · intro _; omega
      · intro _; rfl
  refine ⟨htok, hform, ?_, ?_⟩
  · intro src page hp h
    have hnil : pageSlice 25 src page = [] := (htok src page).mp h
    have hdrop : src.drop ((page - 1) * 25) = [] := by
      unfold pageSlice at hnil
      rcases List.take_eq_nil_iff.mp hnil with h1 | h1
      · exact absurd h1 (by omega)
      · exact h1
    have hlen : src.length ≤ (page - 1) * 25 := List.drop_eq_nil_iff.mp hdrop
    unfold remainingAfter
    exact List.drop_eq_nil_iff.mpr (by omega)
  · intro src page hp h
    have hlt : (pageSlice 100 src page).length < 100 := (hform src page).mp h
    have hlen : (src.drop ((page - 1) * 100)).length < 100 := by
      unfold pageSlice at hlt
      rw [List.length_take] at hlt
      omega
    rw [List.length_drop] at hlen
    unfold remainingAfter
    exact List.drop_eq_nil_iff.mpr (by omega)

/-- Claim C6, witness: the amended characterization at a concrete
one-tender source: the follow-up page 2 is empty with an empty cursor
and nothing remains, and a first form page with fewer than 100 rows is
final. -/
theorem C6_cursor_witness :
    ((tokenList [tT1] 2).2 = "" ↔ (tokenList [tT1] 2).1 = []) ∧
    remainingAfter 25 [tT1] 2 = [] ∧
    remainingAfter 100 [tT1] 1 = [] :=
  ⟨C6_cursor.1 [tT1] 2,
   C6_cursor.2.2.1 [tT1] 2 (by decide) (by decide),
   C6_cursor.2.2.2 [tT1] 1 (by decide) (by decide)⟩

/-! ## Claim C10 -/

/-- Claim C10: a raw browser-session entry whose displayed issued or
close date parses to calendar year 9999 is not rejected as invalid:
conversion succeeds, the sentinel field is replaced with the current
time, and the record is inserted normally, so the stored column holds
the run date rather than the sentinel value. -/
theorem C10_sentinel (now : Date) (e : RawEntry) (idPart rest : String) (d c : Date)
    (hcut : cutSpace e.title = some (idPart, rest))
    (hav : e.dateAvailable = some d) (hcl : e.dateClosing = some c) :
    ∃ t : Tender, convertEntry now e = .ok t ∧
      (d.year = 9999 → t.IssuedDate = now) ∧
      (c.year = 9999 → t.CloseDate = now) ∧
      ∀ s : Store, s.any (fun r => r.id == t.ID) = false →
        (storeAdd s t now).2 = true ∧
        (storeAdd s t now).1 = s ++ [t.toRow now] ∧
        (d.year = 9999 → (t.toRow now).issued = now) ∧
        (c.year = 9999 → (t.toRow now).close = now) := by
  refine ⟨{ ID := idPart
            URL := browserBase ++ "/Module/Tenders/en/Tender/Detail/" ++ e.id
            Description := cleanDescription rest
            Agency := "Halifax Regional Municipality"
            IssuedDate := if d.year == 9999 then now else d
            CloseDate := if c.year == 9999 then now else c }, ?_, ?_, ?_, ?_⟩
  · simp [convertEntry, hcut, hav, hcl]
  · intro h; simp [h]
  · intro h; simp [h]
  · intro s hs
    refine ⟨by simp [storeAdd, hs], by simp [storeAdd, hs], ?_, ?_⟩
    · intro h; simp [Tender.toRow, h]
    · intro h; simp [Tender.toRow, h]

/-- Claim C10, witness: a concrete entry with both display dates in
year 9999 converts successfully and carries the run date in both date
fields. -/
theorem C10_sentinel_witness :
    ∃ t : Tender, convertEntry d0 raw9999 = .ok t ∧
      t.IssuedDate = d0 ∧ t.CloseDate = d0 := by
  rcases C10_sentinel d0 raw9999 "T999" "- Snow removal" ⟨9999, 1, 1⟩ ⟨9999, 1, 1⟩
      (by decide) (by decide) (by decide) with ⟨t, h1, h2, h3, _⟩
  exact ⟨t, h1, h2 rfl, h3 rfl⟩

end TenderDigest
